import Mathlib

/-!
# Verification of the Osito conversational-turn pipeline

Shallow embedding of `src/osito.py`: the language-gated transcriber
(`transcribe`), the response sanitizer inside `generate_response`
(prefix strip, asterisk removal, emoji removal, whitespace collapse,
empty fallback), the bounded session history of `main_loop`, and the
speech stage `speak`.  External backends (Whisper, Ollama, Piper,
afplay) are oracles passed in as parameters; Python exceptions are an
explicit `ExcKind` (the exception classes named by the `except`
clauses, plus `otherError` for every class they do not name).
Strings are Unicode codepoint sequences, as in Python.
-/

namespace Osito

/-! ## Python string primitives -/

/-- Whitespace characters as recognized by Python's `str.strip()` and `\s`. -/
def isSpaceChar (c : Char) : Bool :=
  c = ' ' || c = '\t' || c = '\n' || c = '\r' || c = '\x0b' || c = '\x0c'

/-- `str.strip()` on codepoint lists: drop whitespace at both ends. -/
def pyStrip (l : List Char) : List Char :=
  ((l.dropWhile isSpaceChar).reverse.dropWhile isSpaceChar).reverse

/-- `str.strip()` on strings. -/
def pyStripS (s : String) : String := String.mk (pyStrip s.toList)

/-- `re.sub(r'\s+', ' ', ·)`: each maximal whitespace run becomes a
single space — a whitespace character followed by more whitespace is
absorbed, the last of a run is emitted as `' '`. -/
def collapseSpaces : List Char → List Char
  | [] => []
  | [c] => if isSpaceChar c then [' '] else [c]
  | c :: d :: cs =>
    if isSpaceChar c then
      if isSpaceChar d then collapseSpaces (d :: cs)
      else ' ' :: collapseSpaces (d :: cs)
    else c :: collapseSpaces (d :: cs)

/-- `.replace("**", "")`: delete non-overlapping `**` occurrences, left to right. -/
def removeStarStar : List Char → List Char
  | [] => []
  | [c] => [c]
  | c :: d :: cs =>
    if c = '*' ∧ d = '*' then removeStarStar cs
    else c :: removeStarStar (d :: cs)

/-- `.replace("*", "")`: delete every remaining asterisk. -/
def removeStar : List Char → List Char
  | [] => []
  | c :: cs => if c = '*' then removeStar cs else c :: removeStar cs

/-! ## `strip_emojis` (src/osito.py lines 231-248) -/

/-- Membership in the regex character class of `strip_emojis`, one
disjunct per source range (emoticons, symbols & pictographs, transport
& map, flags, dingbats, enclosed characters, supplemental symbols,
chess symbols, symbols extended, misc symbols). -/
def isEmojiChar (c : Char) : Bool :=
  let n := c.toNat
  (0x1F600 ≤ n && n ≤ 0x1F64F) ||
  (0x1F300 ≤ n && n ≤ 0x1F5FF) ||
  (0x1F680 ≤ n && n ≤ 0x1F6FF) ||
  (0x1F1E0 ≤ n && n ≤ 0x1F1FF) ||
  (0x2702 ≤ n && n ≤ 0x27B0) ||
  (0x24C2 ≤ n && n ≤ 0x1F251) ||
  (0x1F900 ≤ n && n ≤ 0x1F9FF) ||
  (0x1FA00 ≤ n && n ≤ 0x1FA6F) ||
  (0x1FA70 ≤ n && n ≤ 0x1FAFF) ||
  (0x2600 ≤ n && n ≤ 0x26FF)

/-- `strip_emojis`: `emoji_pattern.sub("", text).strip()` — substituting
every emoji run by the empty string deletes exactly the emoji codepoints. -/
def strip_emojis (l : List Char) : List Char :=
  pyStrip (l.filter (fun c => !(isEmojiChar c)))

/-! ## Sanitizer: the cleanup block of `generate_response` (lines 268-284) -/

/-- The role-label / markdown prefixes checked in order by the cleanup loop. -/
def labelPrefixes : List (List Char) :=
  ["Osito:".toList, "osito:".toList, "**".toList]

/-- The `for prefix in [...]` loop: one pass; each matching entry is cut
and the remainder re-stripped before the next entry is tested. -/
def stripLabels (l : List Char) : List Char :=
  labelPrefixes.foldl
    (fun t p => if p.isPrefixOf t then pyStrip (t.drop p.length) else t) l

/-- The fallback substituted when the cleaned text is empty (line 283). -/
def DEFAULT_RESPONSE : List Char := "Hola! Como estas?".toList

/-- Lines 268-284 of `generate_response` as a pure function on
codepoint lists: strip, prefix loop, `replace("**","")`, `replace("*","")`,
`strip_emojis`, whitespace collapse + strip, empty fallback. -/
def sanitizeList (l : List Char) : List Char :=
  let t0 := pyStrip l
  let t1 := stripLabels t0
  let t2 := removeStar (removeStarStar t1)
  let t3 := strip_emojis t2
  let t4 := pyStrip (collapseSpaces t3)
  if t4 = [] then DEFAULT_RESPONSE else t4

/-- The sanitizer on strings. -/
def sanitize (s : String) : String := String.mk (sanitizeList s.toList)

/-- Whether a string still begins with one of the prefixes the cleanup
loop looks for. -/
def startsWithLabel (s : String) : Bool :=
  labelPrefixes.any fun p => p.isPrefixOf s.toList

/-- The head, if any, is not whitespace (an analysis device, not source). -/
def headNotSpace : List Char → Bool
  | [] => true
  | c :: _ => !isSpaceChar c

/-- Fully collapsed whitespace: every whitespace character is a single
`' '` not followed by more whitespace (an analysis device, not source). -/
def noRun : List Char → Bool
  | [] => true
  | c :: cs => (!isSpaceChar c || (c == ' ' && headNotSpace cs)) && noRun cs

/-- The raw reply of the spec's sanitizer scenario:
`"**Osito:** Hola Ana! 😊 Te gusta el azul?"` (the emoji is U+1F60A). -/
def scenarioRawReply : String :=
  "**Osito:** Hola Ana! " ++ String.mk [Char.ofNat 0x1F60A] ++ " Te gusta el azul?"

/-! ## Exceptions and backend oracles -/

/-- Python exception classes, grouped by how `osito.py` handles them:
the three classes named in the `except` clause of `transcribe`, and
`otherError` for every exception class it does not name. -/
inductive ExcKind where
  | runtimeError
  | valueError
  | keyError
  | otherError
deriving DecidableEq, Repr

/-- The classes caught by `except (RuntimeError, ValueError, KeyError)`. -/
def caughtByTranscribe : ExcKind → Bool
  | .runtimeError => true
  | .valueError => true
  | .keyError => true
  | .otherError => false

/-- A Python call either returns a value or raises an exception. -/
inductive PyResult (α : Type) where
  | ok (a : α)
  | raised (k : ExcKind)
deriving DecidableEq, Repr

/-! ## `transcribe` (src/osito.py lines 180-224) -/

/-- The hallucination list of `transcribe` (lines 209-212). -/
def hallucinations : List String :=
  ["Gracias por ver", "Suscribete", "subtitulos",
   "MBC", "Thank you for watching", "Subscribe"]

/-- Python's substring test `p in l` on codepoint lists. -/
def containsSub (p : List Char) : List Char → Bool
  | [] => p.isPrefixOf []
  | c :: t => p.isPrefixOf (c :: t) || containsSub p t

/-- Python's `str.lower()` (ASCII case fold, as all filtered phrases are ASCII). -/
def pyLower (s : String) : List Char := s.toList.map Char.toLower

/-- The hallucination-filter loop (lines 213-215): some phrase occurs
case-insensitively in the transcript and the transcript is under 40 chars. -/
def hallucinationHit (text : String) : Bool :=
  hallucinations.any fun h =>
    containsSub (pyLower h) (pyLower text) && decide (text.length < 40)

/-- Result of a call to `transcribe`: the returned `(text, status)` pair
(or the uncaught exception), plus whether control reached the underlying
`whisper_model.transcribe` call. -/
structure TranscribeResult where
  value : PyResult (Option String × String)
  invokedTranscription : Bool
deriving DecidableEq, Repr

/-- `transcribe`, with the two backend steps as oracles: `detect` is the
outcome of language detection (lines 184-189, yielding the top-probability
language) and `trans` the outcome of the `whisper_model.transcribe` call
(line 198, yielding `result["text"]`).  Exceptions of the classes listed
in the `except` clause become `(None, "error")`; any other class
propagates. -/
def transcribe (detect : PyResult String) (trans : PyResult String) :
    TranscribeResult :=
  match detect with
  | .raised k =>
    if caughtByTranscribe k then ⟨.ok (none, "error"), false⟩
    else ⟨.raised k, false⟩
  | .ok detected_lang =>
    if !(detected_lang == "en" || detected_lang == "es") then
      ⟨.ok (none, "unsupported_language"), false⟩
    else
      match trans with
      | .raised k =>
        if caughtByTranscribe k then ⟨.ok (none, "error"), true⟩
        else ⟨.raised k, true⟩
      | .ok raw =>
        let text := pyStripS raw
        if hallucinationHit text then ⟨.ok (none, "no_speech"), true⟩
        else if text == "" || text.length < 2 then ⟨.ok (none, "no_speech"), true⟩
        else ⟨.ok (some text, detected_lang), true⟩

/-! ## `generate_response` (src/osito.py lines 251-289) -/

/-- A chat message `{role, content}`. -/
structure Msg where
  role : String
  content : String
deriving DecidableEq, Repr

/-- The persona instructions (the `SYSTEM_PROMPT` literal, abridged to its
constant role in the pipeline: its exact text never affects control flow). -/
def SYSTEM_PROMPT : String :=
  "You are Osito, a friendly teddy bear teaching Spanish to 4-year-old children."

/-- Message assembly (lines 255-257): system prompt, then history, then
the current user message. -/
def build_messages (user_text : String) (conversation_history : List Msg) :
    List Msg :=
  ⟨"system", SYSTEM_PROMPT⟩ :: conversation_history ++ [⟨"user", user_text⟩]

/-- The fallback returned from the `except Exception` handler (line 289). -/
def GENERATION_FALLBACK : String := "Hola! Que quieres decirme?"

/-- `generate_response`: call the chat backend on the assembled messages;
on success run the sanitizer over the reply, on any exception return the
fixed fallback (every exception class is caught by `except Exception`). -/
def generate_response (user_text : String) (conversation_history : List Msg)
    (chat : List Msg → PyResult String) : String :=
  match chat (build_messages user_text conversation_history) with
  | .ok content => sanitize content
  | .raised _ => GENERATION_FALLBACK

/-! ## Session history (src/osito.py lines 344, 399-406) -/

def MAX_HISTORY_TURNS : Nat := 4

/-- Lines 399-406 of `main_loop`: append the user/assistant pair, then
keep only the last `MAX_HISTORY_TURNS * 2` messages. -/
def appendTurn (conversation_history : List Msg) (text response : String) :
    List Msg :=
  let h := conversation_history ++
    [⟨"user", text⟩, ⟨"assistant", response⟩]
  let max_messages := MAX_HISTORY_TURNS * 2
  if h.length > max_messages then h.drop (h.length - max_messages) else h

/-- The history after a sequence of successful turns, each recorded by
`appendTurn`, starting from the empty history of line 344. -/
def runTurns (ts : List (String × String)) : List Msg :=
  ts.foldl (fun h t => appendTurn h t.1 t.2) []

/-- The pair of messages a successful turn contributes. -/
def turnPair (t : String × String) : List Msg :=
  [⟨"user", t.1⟩, ⟨"assistant", t.2⟩]

/-! ## One iteration of `main_loop` (src/osito.py lines 369-406) -/

def LANG_FALLBACK : String := "Hmm, solo entiendo espanol e ingles. Try again!"

def NO_SPEECH_FALLBACK : String := "No te escuche bien. Can you say that again?"

/-- The body of `main_loop` from the `transcribe` result on: the status
checks, generation, and the history append+trim.  Returns the new history
and the message spoken this turn. -/
def loopTurn (conversation_history : List Msg) (tr : Option String × String)
    (chat : List Msg → PyResult String) : List Msg × String :=
  let text := tr.1
  let status := tr.2
  if status == "unsupported_language" then
    (conversation_history, LANG_FALLBACK)
  else
    match text with
    | none => (conversation_history, NO_SPEECH_FALLBACK)
    | some t =>
      let response := generate_response t conversation_history chat
      (appendTurn conversation_history t response, response)

/-! ## `speak` (src/osito.py lines 296-320) -/

/-- Outcome of a `subprocess.run` call: completion with a return code,
`TimeoutExpired`, or an `OSError`-style launch failure. -/
inductive RunOutcome where
  | completed (returncode : Int)
  | timedOut
  | osFailure
deriving DecidableEq, Repr

/-- Observable effects of one `speak` call. -/
structure SpeakResult where
  fileDeleted : Bool
  playedAudio : Bool
  printedText : Bool
deriving DecidableEq, Repr

/-- `speak`, with the two subprocess calls as oracles: `synth` is the
Piper invocation (`check=False`, nonzero return code raises `RuntimeError`
by hand), `play` the `afplay` invocation (`check=True`).  `os.unlink`
appears only after a successful playback; both `except` arms print the
text instead. -/
def speak (synth : RunOutcome) (play : RunOutcome) : SpeakResult :=
  match synth with
  | .timedOut => ⟨false, false, true⟩
  | .osFailure => ⟨false, false, true⟩
  | .completed rc =>
    if rc ≠ 0 then ⟨false, false, true⟩
    else
      match play with
      | .timedOut => ⟨false, false, true⟩
      | .osFailure => ⟨false, false, true⟩
      | .completed rc2 =>
        if rc2 ≠ 0 then ⟨false, false, true⟩
        else ⟨true, true, false⟩

/-! ## Helper lemmas: membership through the sanitizer stages -/

theorem mem_pyStrip {c : Char} {l : List Char} (h : c ∈ pyStrip l) : c ∈ l := by
  unfold pyStrip at h
  rw [List.mem_reverse] at h
  have h1 : c ∈ (l.dropWhile isSpaceChar).reverse :=
    List.Sublist.mem h (List.dropWhile_sublist _)
  rw [List.mem_reverse] at h1
  exact List.Sublist.mem h1 (List.dropWhile_sublist _)

theorem mem_removeStarStar {c : Char} :
    ∀ {l : List Char}, c ∈ removeStarStar l → c ∈ l := by
  intro l
  induction l using removeStarStar.induct with
  | case1 => exact fun h => h
  | case2 d => exact fun h => h
  | case3 d e cs h ih =>
    rw [removeStarStar, if_pos h]
    intro hm
    exact List.mem_cons.mpr (.inr (List.mem_cons.mpr (.inr (ih hm))))
  | case4 d e cs h ih =>
    rw [removeStarStar, if_neg h]
    intro hm
    rcases List.mem_cons.mp hm with hm | hm
    · exact List.mem_cons.mpr (.inl hm)
    · exact List.mem_cons.mpr (.inr (ih hm))

theorem mem_removeStar {c : Char} :
    ∀ {l : List Char}, c ∈ removeStar l → c ∈ l := by
  intro l
  induction l with
  | nil => exact fun h => h
  | cons d cs ih =>
    rw [removeStar]
    by_cases hd : d = '*'
    · rw [if_pos hd]
      exact fun h => List.mem_cons.mpr (.inr (ih h))
    · rw [if_neg hd]
      intro h
      rcases List.mem_cons.mp h with h | h
      · exact List.mem_cons.mpr (.inl h)
      · exact List.mem_cons.mpr (.inr (ih h))

theorem mem_collapseSpaces {c : Char} :
    ∀ {l : List Char}, c ∈ collapseSpaces l → c ∈ l ∨ c = ' ' := by
  intro l
  induction l using collapseSpaces.induct with
  | case1 => exact fun h => .inl h
  | case2 d hd =>
    rw [collapseSpaces, if_pos hd]
    exact fun h => .inr (by simpa using h)
  | case3 d hd =>
    rw [collapseSpaces, if_neg hd]
    exact fun h => .inl h
  | case4 d e cs hd he ih =>
    rw [collapseSpaces, if_pos hd, if_pos he]
    intro h
    rcases ih h with h | h
    · exact .inl (List.mem_cons.mpr (.inr h))
    · exact .inr h
  | case5 d e cs hd he ih =>
    rw [collapseSpaces, if_pos hd, if_neg he]
    intro h
    rcases List.mem_cons.mp h with h | h
    · exact .inr h
    · rcases ih h with h | h
      · exact .inl (List.mem_cons.mpr (.inr h))
      · exact .inr h
  | case6 d e cs hd ih =>
    rw [collapseSpaces, if_neg hd]
    intro h
    rcases List.mem_cons.mp h with h | h
    · exact .inl (List.mem_cons.mpr (.inl h))
    · rcases ih h with h | h
      · exact .inl (List.mem_cons.mpr (.inr h))
      · exact .inr h

theorem mem_strip_emojis {c : Char} {l : List Char} (h : c ∈ strip_emojis l) :
    c ∈ l ∧ isEmojiChar c = false := by
  unfold strip_emojis at h
  have h1 := mem_pyStrip h
  rw [List.mem_filter] at h1
  exact ⟨h1.1, by simpa using h1.2⟩

theorem mem_stripLabels {c : Char} {l : List Char} (h : c ∈ stripLabels l) :
    c ∈ l := by
  unfold stripLabels labelPrefixes at h
  simp only [List.foldl_cons, List.foldl_nil] at h
  have step : ∀ (p t : List Char),
      c ∈ (if p.isPrefixOf t then pyStrip (t.drop p.length) else t) → c ∈ t := by
    intro p t ht
    split at ht
    · exact List.Sublist.mem (mem_pyStrip ht) (List.drop_sublist _ _)
    · exact ht
  exact step _ _ (step _ _ (step _ _ h))

/-! ## Helper lemmas: asterisk removal -/

theorem star_not_mem_removeStar : ∀ l : List Char, '*' ∉ removeStar l := by
  intro l
  induction l with
  | nil => intro h; exact absurd h (List.not_mem_nil _)
  | cons d cs ih =>
    rw [removeStar]
    by_cases hd : d = '*'
    · rwa [if_pos hd]
    · rw [if_neg hd]
      intro h
      rcases List.mem_cons.mp h with h | h
      · exact hd h.symm
      · exact ih h

theorem removeStarStar_eq_self :
    ∀ {l : List Char}, '*' ∉ l → removeStarStar l = l := by
  intro l
  induction l using removeStarStar.induct with
  | case1 => intro _; rfl
  | case2 d => intro _; rfl
  | case3 d e cs h ih =>
    intro hs
    exact absurd (List.mem_cons.mpr (.inl h.1.symm)) hs
  | case4 d e cs h ih =>
    intro hs
    rw [removeStarStar, if_neg h,
      ih (fun hm => hs (List.mem_cons.mpr (.inr hm)))]

theorem removeStar_eq_self : ∀ {l : List Char}, '*' ∉ l → removeStar l = l := by
  intro l
  induction l with
  | nil => intro _; rfl
  | cons d cs ih =>
    intro hs
    rw [removeStar, if_neg (fun hd => hs (List.mem_cons.mpr (.inl hd.symm))),
      ih (fun hm => hs (List.mem_cons.mpr (.inr hm)))]

/-! ## Helper lemmas: `pyStrip` is idempotent -/

theorem dropWhile_eq_self_of_prefix {p : Char → Bool} {r m : List Char}
    (hpre : r <+: m) (hm : m.dropWhile p = m) : r.dropWhile p = r := by
  match r with
  | [] => rfl
  | a :: r' =>
    obtain ⟨t, rfl⟩ := hpre
    rw [List.cons_append] at hm
    rw [List.dropWhile_cons] at hm ⊢
    by_cases hpa : p a = true
    · rw [if_pos hpa] at hm
      have hlen := (List.dropWhile_sublist (p := p) (l := r' ++ t)).length_le
      rw [hm] at hlen
      simp at hlen
    · rw [if_neg hpa]

theorem pyStrip_prefix_dropWhile (l : List Char) :
    pyStrip l <+: l.dropWhile isSpaceChar := by
  unfold pyStrip
  have h := List.dropWhile_suffix (l := (l.dropWhile isSpaceChar).reverse)
    (p := isSpaceChar)
  have := List.reverse_prefix.mpr h
  rwa [List.reverse_reverse] at this

theorem pyStrip_noLead (l : List Char) :
    (pyStrip l).dropWhile isSpaceChar = pyStrip l :=
  dropWhile_eq_self_of_prefix (pyStrip_prefix_dropWhile l)
    (List.dropWhile_idempotent _ _)

theorem pyStrip_noTrail (l : List Char) :
    (pyStrip l).reverse.dropWhile isSpaceChar = (pyStrip l).reverse := by
  unfold pyStrip
  rw [List.reverse_reverse]
  exact List.dropWhile_idempotent _ _

theorem pyStrip_eq_self {l : List Char}
    (h1 : l.dropWhile isSpaceChar = l)
    (h2 : l.reverse.dropWhile isSpaceChar = l.reverse) : pyStrip l = l := by
  unfold pyStrip
  rw [h1, h2, List.reverse_reverse]

theorem pyStrip_idem (l : List Char) : pyStrip (pyStrip l) = pyStrip l :=
  pyStrip_eq_self (pyStrip_noLead l) (pyStrip_noTrail l)

theorem pyStrip_sublist (l : List Char) : (pyStrip l).Sublist l := by
  have h1 : (pyStrip l).Sublist (l.dropWhile isSpaceChar) :=
    (pyStrip_prefix_dropWhile l).sublist
  exact h1.trans (List.dropWhile_sublist _)

/-! ## Helper lemmas: collapsed whitespace (`noRun`) -/

theorem headNotSpace_collapseSpaces {l : List Char}
    (h : headNotSpace l = true) : headNotSpace (collapseSpaces l) = true := by
  match l with
  | [] => exact h
  | [c] =>
    rw [headNotSpace] at h
    rw [collapseSpaces, if_neg (by simpa using h)]
    exact h
  | c :: d :: cs =>
    rw [headNotSpace] at h
    rw [collapseSpaces, if_neg (by simpa using h)]
    exact h

theorem noRun_collapseSpaces : ∀ l : List Char, noRun (collapseSpaces l) = true := by
  intro l
  induction l using collapseSpaces.induct with
  | case1 => rfl
  | case2 c hc => rw [collapseSpaces, if_pos hc]; rfl
  | case3 c hc =>
    rw [collapseSpaces, if_neg hc, noRun, headNotSpace, noRun]
    simp [hc]
  | case4 c d cs hc hd ih => rwa [collapseSpaces, if_pos hc, if_pos hd]
  | case5 c d cs hc hd ih =>
    rw [collapseSpaces, if_pos hc, if_neg hd, noRun]
    have hh : headNotSpace (collapseSpaces (d :: cs)) = true :=
      headNotSpace_collapseSpaces (by simpa [headNotSpace] using hd)
    simp [hh, ih]
  | case6 c d cs hc ih =>
    rw [collapseSpaces, if_neg hc, noRun]
    simp [hc, ih]

theorem noRun_append_right {t s : List Char}
    (h : noRun (t ++ s) = true) : noRun s = true := by
  induction t with
  | nil => exact h
  | cons c cs ih =>
    rw [List.cons_append, noRun, Bool.and_eq_true] at h
    exact ih h.2

theorem headNotSpace_take {l : List Char} {n : Nat}
    (h : headNotSpace l = true) : headNotSpace (l.take n) = true := by
  match l, n with
  | [], _ => rw [List.take_nil]; exact h
  | _ :: _, 0 => rfl
  | c :: cs, n + 1 => exact h

theorem noRun_take {l : List Char} (n : Nat)
    (h : noRun l = true) : noRun (l.take n) = true := by
  induction l generalizing n with
  | nil => rw [List.take_nil]; exact h
  | cons c cs ih =>
    match n with
    | 0 => rfl
    | n + 1 =>
      rw [List.take_succ_cons, noRun, Bool.and_eq_true, Bool.or_eq_true,
        Bool.and_eq_true]
      rw [noRun, Bool.and_eq_true, Bool.or_eq_true, Bool.and_eq_true] at h
      refine ⟨?_, ih n h.2⟩
      rcases h.1 with h1 | h1
      · exact .inl h1
      · exact .inr ⟨h1.1, headNotSpace_take h1.2⟩

theorem noRun_of_prefix {r l : List Char} (hp : r <+: l)
    (h : noRun l = true) : noRun r = true := by
  rw [List.prefix_iff_eq_take] at hp
  rw [hp]
  exact noRun_take _ h

theorem noRun_of_suffix {s l : List Char} (hs : s <:+ l)
    (h : noRun l = true) : noRun s = true := by
  obtain ⟨t, rfl⟩ := hs
  exact noRun_append_right h

theorem noRun_pyStrip {l : List Char} (h : noRun l = true) :
    noRun (pyStrip l) = true :=
  noRun_of_prefix (pyStrip_prefix_dropWhile l)
    (noRun_of_suffix (List.dropWhile_suffix _) h)

theorem collapseSpaces_eq_self :
    ∀ {l : List Char}, noRun l = true → collapseSpaces l = l := by
  intro l
  induction l using collapseSpaces.induct with
  | case1 => intro _; rfl
  | case2 c hc =>
    intro h
    have hc' : c = ' ' := by simpa [noRun, headNotSpace, hc] using h
    rw [collapseSpaces, if_pos hc, hc']
  | case3 c hc =>
    intro _
    rw [collapseSpaces, if_neg hc]
  | case4 c d cs hc hd ih =>
    rw [noRun, headNotSpace]
    intro h
    rw [Bool.and_eq_true, Bool.or_eq_true, Bool.and_eq_true] at h
    rcases h.1 with h1 | h1
    · simp [hc] at h1
    · simp [hd] at h1
  | case5 c d cs hc hd ih =>
    rw [noRun, headNotSpace]
    intro h
    rw [Bool.and_eq_true, Bool.or_eq_true, Bool.and_eq_true] at h
    rcases h.1 with h1 | h1
    · simp [hc] at h1
    · have hc' : c = ' ' := by simpa using h1.1
      rw [collapseSpaces, if_pos hc, if_neg hd, ih h.2, hc']
  | case6 c d cs hc ih =>
    rw [noRun]
    intro h
    rw [Bool.and_eq_true] at h
    rw [collapseSpaces, if_neg hc, ih h.2]

/-! ## Helper lemmas: the sanitizer output characterization -/

theorem stripLabels_eq_self {l : List Char}
    (h : ∀ p ∈ labelPrefixes, p.isPrefixOf l = false) : stripLabels l = l := by
  have h1 : ("Osito:".toList.isPrefixOf l) = false := h _ (by simp [labelPrefixes])
  have h2 : ("osito:".toList.isPrefixOf l) = false := h _ (by simp [labelPrefixes])
  have h3 : ("**".toList.isPrefixOf l) = false := h _ (by simp [labelPrefixes])
  unfold stripLabels labelPrefixes
  simp only [List.foldl_cons, List.foldl_nil, h1, h2, h3, Bool.false_eq_true,
    if_false]

theorem toList_mk (l : List Char) : (String.mk l).toList = l := rfl

theorem sanitizeList_props (l : List Char) :
    pyStrip (sanitizeList l) = sanitizeList l ∧
    noRun (sanitizeList l) = true ∧
    '*' ∉ sanitizeList l ∧
    (∀ c ∈ sanitizeList l, isEmojiChar c = false) ∧
    sanitizeList l ≠ [] := by
  simp only [sanitizeList]
  set t2 := removeStar (removeStarStar (stripLabels (pyStrip l))) with ht2
  set t4 := pyStrip (collapseSpaces (strip_emojis t2)) with ht4
  by_cases h : t4 = []
  · rw [if_pos h]
    exact ⟨by decide, by decide, by decide, by decide, by decide⟩
  · rw [if_neg h]
    refine ⟨?_, ?_, ?_, ?_, h⟩
    · rw [ht4]; exact pyStrip_idem _
    · rw [ht4]; exact noRun_pyStrip (noRun_collapseSpaces _)
    · intro hm
      rw [ht4] at hm
      rcases mem_collapseSpaces (mem_pyStrip hm) with h2 | h2
      · have hin : '*' ∈ t2 := (mem_strip_emojis h2).1
        rw [ht2] at hin
        exact star_not_mem_removeStar _ hin
      · exact absurd h2 (by decide)
    · intro c hc
      rw [ht4] at hc
      rcases mem_collapseSpaces (mem_pyStrip hc) with h2 | h2
      · exact (mem_strip_emojis h2).2
      · rw [h2]; decide

theorem sanitizeList_fix {y : List Char}
    (h1 : pyStrip y = y) (h2 : noRun y = true) (h3 : '*' ∉ y)
    (h4 : ∀ c ∈ y, isEmojiChar c = false) (h5 : y ≠ [])
    (h6 : ∀ p ∈ labelPrefixes, p.isPrefixOf y = false) :
    sanitizeList y = y := by
  have hf : y.filter (fun c => !(isEmojiChar c)) = y :=
    List.filter_eq_self.mpr (fun c hc => by simp [h4 c hc])
  simp only [sanitizeList, strip_emojis]
  rw [h1, stripLabels_eq_self h6, removeStarStar_eq_self h3,
    removeStar_eq_self h3, hf, h1, collapseSpaces_eq_self h2, h1, if_neg h5]

/-! ## Helper lemmas: the bounded session history -/

theorem appendTurn_length_le (h : List Msg) (u a : String) :
    (appendTurn h u a).length ≤ MAX_HISTORY_TURNS * 2 := by
  simp only [appendTurn, MAX_HISTORY_TURNS]
  split
  · rename_i hgt
    simp only [List.length_drop, List.length_append, List.length_cons,
      List.length_nil] at *
    omega
  · rename_i hle
    simp only [List.length_append, List.length_cons, List.length_nil,
      gt_iff_lt, not_lt] at *
    omega

theorem length_flatten_turnPair (l : List (String × String)) :
    ((l.map turnPair).flatten).length = 2 * l.length := by
  induction l with
  | nil => rfl
  | cons t ts ih =>
    simp only [List.map_cons, List.flatten_cons, List.length_append, ih,
      List.length_cons, turnPair, List.length_nil]
    omega

theorem runTurns_append (ts : List (String × String)) (t : String × String) :
    runTurns (ts ++ [t]) = appendTurn (runTurns ts) t.1 t.2 := by
  unfold runTurns
  rw [List.foldl_append, List.foldl_cons, List.foldl_nil]

theorem appendTurn_small (h : List Msg) (u a : String) (hle : h.length ≤ 6) :
    appendTurn h u a = h ++ [⟨"user", u⟩, ⟨"assistant", a⟩] := by
  simp only [appendTurn, MAX_HISTORY_TURNS]
  rw [if_neg (by
    simp only [List.length_append, List.length_cons, List.length_nil,
      gt_iff_lt, not_lt]
    omega)]

theorem appendTurn_full (m1 m2 : Msg) (R : List Msg) (u a : String)
    (hR : R.length = 6) :
    appendTurn (m1 :: m2 :: R) u a = R ++ [⟨"user", u⟩, ⟨"assistant", a⟩] := by
  simp only [appendTurn, MAX_HISTORY_TURNS]
  have hlen : ((m1 :: m2 :: R) ++
      [(⟨"user", u⟩ : Msg), ⟨"assistant", a⟩]).length = 10 := by
    simp only [List.length_append, List.length_cons, List.length_nil, hR]
  rw [if_pos (by rw [hlen]; omega), hlen]
  show ((m1 :: m2 :: R) ++ _).drop 2 = _
  rw [List.cons_append, List.cons_append]
  rfl

theorem runTurns_eq (ts : List (String × String)) :
    runTurns ts =
      ((ts.drop (ts.length - MAX_HISTORY_TURNS)).map turnPair).flatten := by
  induction ts using List.reverseRecOn with
  | nil => rfl
  | append_singleton ts t ih =>
    rw [runTurns_append, ih]
    simp only [MAX_HISTORY_TURNS]
    by_cases hn : ts.length < 4
    · have h0 : ts.length - 4 = 0 := by omega
      have h0' : (ts ++ [t]).length - 4 = 0 := by
        simp only [List.length_append, List.length_cons, List.length_nil]
        omega
      rw [h0, h0', List.drop_zero, List.drop_zero,
        appendTurn_small _ _ _ (by rw [length_flatten_turnPair]; omega),
        List.map_append, List.flatten_append]
      simp [turnPair]
    · have hDlen : (ts.drop (ts.length - 4)).length = 4 := by
        rw [List.length_drop]; omega
      obtain ⟨d, D', hD⟩ : ∃ d D', ts.drop (ts.length - 4) = d :: D' := by
        cases hD : ts.drop (ts.length - 4) with
        | nil => rw [hD] at hDlen; simp at hDlen
        | cons d D' => exact ⟨d, D', rfl⟩
      have hD'len : D'.length = 3 := by
        rw [hD] at hDlen
        simpa using hDlen
      have hD' : D' = ts.drop (ts.length - 3) := by
        have htail := congrArg List.tail hD
        rw [List.tail_drop] at htail
        have hroll : ts.length - 4 + 1 = ts.length - 3 := by omega
        rw [hroll] at htail
        exact htail.symm
      have hRHS : (ts ++ [t]).drop ((ts ++ [t]).length - 4) = D' ++ [t] := by
        have h1' : (ts ++ [t]).length - 4 = ts.length - 3 := by
          simp only [List.length_append, List.length_cons, List.length_nil]
          omega
        rw [h1', List.drop_append_of_le_length (by omega), ← hD']
      rw [hD, hRHS]
      simp only [List.map_cons, List.flatten_cons, List.map_append,
        List.flatten_append]
      have hsh : turnPair d ++ (D'.map turnPair).flatten =
          (⟨"user", d.1⟩ : Msg) :: ⟨"assistant", d.2⟩ ::
            (D'.map turnPair).flatten := by
        simp [turnPair]
      rw [hsh, appendTurn_full _ _ _ _ _
        (by rw [length_flatten_turnPair, hD'len])]
      simp [turnPair]

/-! ## Helper lemmas: the transcriber -/

theorem transcribe_ok_ok (lang raw : String)
    (h : (lang == "en" || lang == "es") = true) :
    transcribe (.ok lang) (.ok raw) =
      if hallucinationHit (pyStripS raw) = true then
        ⟨.ok (none, "no_speech"), true⟩
      else if (pyStripS raw == "" || decide ((pyStripS raw).length < 2)) = true
        then ⟨.ok (none, "no_speech"), true⟩
      else ⟨.ok (some (pyStripS raw), lang), true⟩ := by
  simp only [transcribe]
  rw [if_neg (by simp [h])]

theorem hallucinationHit_eq_false_of_long {text : String}
    (h : 40 ≤ text.length) : hallucinationHit text = false := by
  unfold hallucinationHit
  rw [List.any_eq_false]
  intro p hp
  simp [Nat.not_lt.mpr h]

/-! ## The claims -/

/-- C1: for every audio input whose detected top-probability language is
not one of the two allowed languages (en, es), `transcribe` returns the
rejection `(None, "unsupported_language")` and never reaches the
underlying transcription call — whatever that call would have produced. -/
theorem transcribe_rejects_unsupported_language (lang : String)
    (h1 : lang ≠ "en") (h2 : lang ≠ "es") (trans : PyResult String) :
    transcribe (.ok lang) trans =
      ⟨.ok (none, "unsupported_language"), false⟩ := by
  simp only [transcribe]
  rw [if_pos (by simp [h1, h2])]

/-- Witness for C1 at detected language "fr". -/
theorem transcribe_rejects_unsupported_language_witness :
    transcribe (.ok "fr") (.ok "bonjour") =
      ⟨.ok (none, "unsupported_language"), false⟩ :=
  transcribe_rejects_unsupported_language "fr" (by decide) (by decide)
    (.ok "bonjour")

/-- C2: after any sequence of append-pair-then-trim operations starting
from the empty history, the history length never exceeds
`2 * MAX_HISTORY_TURNS` (8 messages), and the history is exactly the last
`MAX_HISTORY_TURNS` turns in chronological order, each stored as a
user-then-assistant pair — so the oldest pairs are evicted first. -/
theorem history_bounded_and_fifo (ts : List (String × String)) :
    (runTurns ts).length ≤ 2 * MAX_HISTORY_TURNS ∧
    runTurns ts =
      ((ts.drop (ts.length - MAX_HISTORY_TURNS)).map turnPair).flatten := by
  refine ⟨?_, runTurns_eq ts⟩
  rw [runTurns_eq ts, length_flatten_turnPair, List.length_drop]
  simp only [MAX_HISTORY_TURNS]
  omega

/-- C3 counterexample: sanitization is not idempotent. On
"**Osito: hola amigo" the single pass cuts only "**", leaving
"Osito: hola amigo"; a second pass also cuts the now-leading role label. -/
theorem sanitize_not_idempotent_cex :
    sanitize (sanitize "**Osito: hola amigo") ≠
      sanitize "**Osito: hola amigo" := by decide

/-- C3 (amended): `sanitize` is idempotent on every input whose sanitized
result does not still begin with one of the stripped prefixes "Osito:",
"osito:", "**" — the only failures of idempotence come from a leading
role label or markdown marker left by the single-pass prefix loop. -/
theorem sanitize_idempotent_of_no_label (s : String)
    (h : startsWithLabel (sanitize s) = false) :
    sanitize (sanitize s) = sanitize s := by
  obtain ⟨h1, h2, h3, h4, h5⟩ := sanitizeList_props s.toList
  unfold startsWithLabel sanitize at h
  rw [toList_mk, List.any_eq_false] at h
  have h6 : ∀ p ∈ labelPrefixes,
      p.isPrefixOf (sanitizeList s.toList) = false := by
    intro p hp
    have hx := h p hp
    cases hb : p.isPrefixOf (sanitizeList s.toList) with
    | false => rfl
    | true => exact absurd hb hx
  unfold sanitize
  rw [toList_mk, sanitizeList_fix h1 h2 h3 h4 h5 h6]

/-- Witness for the amended C3 at a concrete input. -/
theorem sanitize_idempotent_of_no_label_witness :
    startsWithLabel (sanitize "  hola   amigo ") = false ∧
    sanitize (sanitize "  hola   amigo ") = sanitize "  hola   amigo " :=
  ⟨by decide, sanitize_idempotent_of_no_label _ (by decide)⟩

/-- C4: the sanitizer output is never the empty string, contains no
asterisks and no codepoint of the emoji ranges; and when the cleaned text
comes out empty, the fixed default sentence is substituted. -/
theorem sanitize_output_never_empty_clean (s : String) :
    sanitize s ≠ "" ∧
    (sanitize s).toList.all
      (fun c => !(c == '*') && !(isEmojiChar c)) = true ∧
    (pyStrip (collapseSpaces (strip_emojis (removeStar (removeStarStar
        (stripLabels (pyStrip s.toList)))))) = [] →
      sanitize s = "Hola! Como estas?") := by
  obtain ⟨-, -, h3, h4, h5⟩ := sanitizeList_props s.toList
  unfold sanitize
  refine ⟨?_, ?_, ?_⟩
  · intro h
    apply h5
    rw [show ("" : String) = String.mk [] from rfl] at h
    injection h
  · rw [toList_mk, List.all_eq_true]
    intro c hc
    have hstar : ¬ c = '*' := fun e => h3 (e ▸ hc)
    simp [h4 c hc, hstar]
  · intro hemp
    simp only [sanitizeList]
    rw [if_pos hemp]
    decide

/-- Witness for C4 at "***", whose cleaned text is empty. -/
theorem sanitize_output_never_empty_clean_witness :
    sanitize "***" ≠ "" ∧ sanitize "***" = "Hola! Como estas?" :=
  ⟨(sanitize_output_never_empty_clean "***").1,
   (sanitize_output_never_empty_clean "***").2.2 (by decide)⟩

/-- C5: a turn whose transcription is rejected (the rejections all return
text `None`, with reason unsupported_language, no_speech or error) leaves
the session history unchanged and ends with one of the two fallback
messages — no turn is appended. -/
theorem rejected_turn_preserves_history (history : List Msg)
    (chat : List Msg → PyResult String) (r : String)
    (hr : r = "unsupported_language" ∨ r = "no_speech" ∨ r = "error") :
    (loopTurn history (none, r) chat).1 = history ∧
    ((loopTurn history (none, r) chat).2 = LANG_FALLBACK ∨
     (loopTurn history (none, r) chat).2 = NO_SPEECH_FALLBACK) := by
  rcases hr with rfl | rfl | rfl
  · exact ⟨rfl, .inl rfl⟩
  · exact ⟨rfl, .inr rfl⟩
  · exact ⟨rfl, .inr rfl⟩

/-- Witness for C5 at a nonempty history and reason "error". -/
theorem rejected_turn_preserves_history_witness :
    (loopTurn [⟨"user", "hola"⟩, ⟨"assistant", "buenas"⟩] (none, "error")
        (fun _ => .ok "x")).1 =
      [⟨"user", "hola"⟩, ⟨"assistant", "buenas"⟩] ∧
    ((loopTurn [⟨"user", "hola"⟩, ⟨"assistant", "buenas"⟩] (none, "error")
        (fun _ => .ok "x")).2 = LANG_FALLBACK ∨
     (loopTurn [⟨"user", "hola"⟩, ⟨"assistant", "buenas"⟩] (none, "error")
        (fun _ => .ok "x")).2 = NO_SPEECH_FALLBACK) :=
  rejected_turn_preserves_history _ _ _ (.inr (.inr rfl))

/-- C6 counterexample: an exception of a class not named in the except
clause (modelled as `otherError`, e.g. a TypeError) raised during
detection propagates out of `transcribe` instead of becoming
`Rejected{error}`. -/
theorem transcribe_uncaught_exception_propagates :
    (transcribe (.raised .otherError) (.ok "hola")).value ≠
      .ok (none, "error") := by decide

/-- C6 (amended): exceptions of the classes RuntimeError, ValueError and
KeyError raised during detection or transcription yield `(None, "error")`
and do not propagate; exceptions of any other class propagate uncaught. -/
theorem transcribe_exception_policy (k : ExcKind) (trans : PyResult String)
    (lang : String) (hlang : lang = "en" ∨ lang = "es") :
    (caughtByTranscribe k = true →
      (transcribe (.raised k) trans).value = .ok (none, "error") ∧
      (transcribe (.ok lang) (.raised k)).value = .ok (none, "error")) ∧
    (caughtByTranscribe k = false →
      (transcribe (.raised k) trans).value = .raised k ∧
      (transcribe (.ok lang) (.raised k)).value = .raised k) := by
  rcases hlang with rfl | rfl <;> cases k <;>
    refine ⟨fun hk => ?_, fun hk => ?_⟩ <;>
    first
      | exact ⟨rfl, rfl⟩
      | exact absurd hk (by decide)

/-- Witness for the amended C6 at a RuntimeError during detection. -/
theorem transcribe_exception_policy_witness :
    (transcribe (.raised .runtimeError) (.ok "x")).value =
      .ok (none, "error") :=
  ((transcribe_exception_policy .runtimeError (.ok "x") "en"
    (.inl rfl)).1 (by decide)).1

/-- C7 counterexample: when Piper exits with a nonzero code (synthesis
failure), the temporary file is not deleted — `os.unlink` sits on the
success path only, and the except arms merely print the text. -/
theorem speak_leaks_tempfile_cex :
    (speak (.completed 1) (.completed 0)).fileDeleted = false := by decide

/-- C7 (amended): `speak` deletes the temporary file exactly on the full
success path (synthesis completes with code 0 and playback completes with
code 0); on synthesis failure, playback failure, or a timeout of either
call the file is left behind and the text is printed instead. -/
theorem speak_deletes_file_iff_success (synth play : RunOutcome) :
    ((speak synth play).fileDeleted = true ↔
      (synth = .completed 0 ∧ play = .completed 0)) ∧
    (speak synth play).printedText = !(speak synth play).fileDeleted := by
  cases synth with
  | timedOut => simp [speak]
  | osFailure => simp [speak]
  | completed rc =>
    by_cases hrc : rc = 0
    · subst hrc
      cases play with
      | timedOut => simp [speak]
      | osFailure => simp [speak]
      | completed rc2 =>
        by_cases h2 : rc2 = 0
        · subst h2; simp [speak]
        · simp [speak, h2]
    · simp [speak, hrc]

/-- C8: within an allowed language, a transcript that strips to empty or
below 2 characters, or that case-insensitively contains a hallucination
phrase while shorter than 40 characters, makes `transcribe` return
`(None, "no_speech")`; a transcript of length at least 40 is never caught
by the hallucination filter and comes back recognized. -/
theorem transcribe_no_speech_filter (lang raw : String)
    (hlang : lang = "en" ∨ lang = "es") :
    ((pyStripS raw = "" ∨ (pyStripS raw).length < 2 ∨
        hallucinationHit (pyStripS raw) = true) →
      transcribe (.ok lang) (.ok raw) = ⟨.ok (none, "no_speech"), true⟩) ∧
    (40 ≤ (pyStripS raw).length →
      transcribe (.ok lang) (.ok raw) =
        ⟨.ok (some (pyStripS raw), lang), true⟩) := by
  have hbeq : (lang == "en" || lang == "es") = true := by
    rcases hlang with rfl | rfl <;> rfl
  constructor
  · intro hrej
    rw [transcribe_ok_ok lang raw hbeq]
    by_cases hh : hallucinationHit (pyStripS raw) = true
    · rw [if_pos hh]
    · rw [if_neg hh]
      rcases hrej with he | hlt | hh2
      · rw [if_pos (by simp [he])]
      · rw [if_pos (by simp [hlt])]
      · exact absurd hh2 hh
  · intro hlong
    rw [transcribe_ok_ok lang raw hbeq,
      if_neg (by simp [hallucinationHit_eq_false_of_long hlong]),
      if_neg (by
        simp only [Bool.or_eq_true, beq_iff_eq, decide_eq_true_eq]
        rintro (he | hlt)
        · rw [he] at hlong
          simp at hlong
        · omega)]

/-- Witness for C8: a short hallucination-phrase transcript in Spanish. -/
theorem transcribe_no_speech_filter_witness :
    transcribe (.ok "es") (.ok " Suscribete al canal ") =
      ⟨.ok (none, "no_speech"), true⟩ :=
  (transcribe_no_speech_filter "es" " Suscribete al canal "
    (.inr rfl)).1 (.inr (.inr (by decide)))

/-- C9 counterexample: sanitizing the scenario reply
"**Osito:** Hola Ana! 😊 Te gusta el azul?" does not produce
"Hola Ana! Te gusta el azul?" — the single-pass prefix loop tests
"Osito:" before "**", so once "**" is cut the uncovered "Osito:" stays. -/
theorem sanitize_scenario_cex :
    sanitize scenarioRawReply ≠ "Hola Ana! Te gusta el azul?" := by decide

/-- C9 (amended): sanitizing the scenario reply strips the markdown
asterisks and the emoji but keeps the uncovered role label, giving
"Osito: Hola Ana! Te gusta el azul?". -/
theorem sanitize_scenario_value :
    sanitize scenarioRawReply = "Osito: Hola Ana! Te gusta el azul?" := by
  decide

/-- C10: the "enclosed characters" regex range U+24C2–U+1F251 of
`strip_emojis` contains the CJK ideographs (e.g. 日 U+65E5), Hiragana
(あ U+3042), Katakana (ア U+30A2) and Hangul (가 U+AC00); consequently any
reply whose every character lies in that range is emptied by sanitization
and replaced by the fixed default sentence. -/
theorem enclosed_range_swallows_scripts :
    isEmojiChar (Char.ofNat 0x65E5) = true ∧
    isEmojiChar (Char.ofNat 0x3042) = true ∧
    isEmojiChar (Char.ofNat 0x30A2) = true ∧
    isEmojiChar (Char.ofNat 0xAC00) = true ∧
    ∀ s : String,
      s.toList.all (fun c => decide (0x24C2 ≤ c.toNat) &&
        decide (c.toNat ≤ 0x1F251)) = true →
      sanitize s = "Hola! Como estas?" := by
  refine ⟨by decide, by decide, by decide, by decide, ?_⟩
  intro s hall
  rw [List.all_eq_true] at hall
  have hemo : ∀ c ∈ s.toList, isEmojiChar c = true := by
    intro c hc
    have hr := hall c hc
    rw [Bool.and_eq_true, decide_eq_true_eq, decide_eq_true_eq] at hr
    unfold isEmojiChar
    simp only [Bool.or_eq_true, Bool.and_eq_true, decide_eq_true_eq]
    omega
  have hkey : sanitizeList s.toList = DEFAULT_RESPONSE := by
    simp only [sanitizeList]
    have hfilter : (removeStar (removeStarStar (stripLabels
        (pyStrip s.toList)))).filter (fun c => !(isEmojiChar c)) = [] := by
      rw [List.filter_eq_nil_iff]
      intro c hc
      have hcs : c ∈ s.toList :=
        mem_pyStrip (mem_stripLabels (mem_removeStarStar (mem_removeStar hc)))
      simp [hemo c hcs]
    simp only [strip_emojis, hfilter]
    rfl
  show String.mk (sanitizeList s.toList) = _
  rw [hkey]
  decide

/-- Witness for C10 at the all-Hiragana reply "こんにちは". -/
theorem enclosed_range_swallows_scripts_witness :
    sanitize (String.mk [Char.ofNat 0x3053, Char.ofNat 0x3093,
      Char.ofNat 0x306B, Char.ofNat 0x3061, Char.ofNat 0x306F]) =
      "Hola! Como estas?" :=
  enclosed_range_swallows_scripts.2.2.2.2 _ (by decide)

end Osito
